import Mathlib

/-!
Verification of the order-checkout and receipt-retrieval core of a
point-of-sale system (Express + PostgreSQL backend).

The embedding models, faithfully to the JavaScript source:

* the relational state touched by `router.post('/processOrder')`:
  `receipt`, `line_item`, `meal_item`, `drink_item`, `appetizer_item`,
  `menu`, `recipe_ingredient`, `ingredient`, `inventory`;
* the checkout handler itself (receipt insert, per-entry quantity loop
  inserting one `line_item` row and — for the recognized `type` strings
  `'Meal'`, `'drink'`, `'Drink'`, `'appetizer'` — one variant row, then the
  per-entry ingredient lookup and the per-row inventory `UPDATE`);
* the transactional wrapper (`BEGIN` … `COMMIT` / `ROLLBACK` on error),
  via an explicit failure oracle marking which SQL statement (if any)
  fails: a failed statement aborts the run and the handler answers with
  the initial database state and a 500-style error response;
* the receipt fetch handler `router.get('/receipts/:receipt_id')`, which
  re-derives each line item's variant by sequentially probing the
  `meal_item`, `appetizer_item`, `drink_item` tables (first match wins,
  `'Unknown'` when none matches).

JavaScript conventions carried over: `orderItem.quantity || 1` (a missing,
null or zero quantity counts as 1), `orderItem.entrees[k] || null` (missing
slots and empty strings become SQL NULL), `[...].filter(Boolean)` on fetch
(drops nulls and empty strings), and the hardcoded `'Regular'` size in the
`drink_item` insert.
-/

/-- A cart entry as submitted in `orderList` (request body of
`/processOrder`).  Optional JS fields are `Option`s; `quantity` is
`Option Nat` (`none` = field missing or null, `some 0` = explicit 0 —
both falsy in `orderItem.quantity || 1`). -/
structure OrderItem where
  type : String
  name : Option String := none
  size : Option String := none
  entrees : List (Option String) := []
  side : Option String := none
  price : Int := 0
  quantity : Option Nat := none
deriving Repr, DecidableEq

/-- `orderItem.quantity || 1`: missing, null and `0` all default to 1. -/
def effQuantity (it : OrderItem) : Nat :=
  match it.quantity with
  | none => 1
  | some 0 => 1
  | some n => n

/-- `orderItem.entrees[k] || null`: an absent slot, a null slot or an
empty-string slot all reach the SQL parameter as NULL. -/
def entreeAt (it : OrderItem) (k : Nat) : Option String :=
  match it.entrees.get? k with
  | some (some s) => if s = "" then none else some s
  | _ => none

/-- Row of the `receipt` table (`status` has no value supplied by the
checkout insert). -/
structure ReceiptRow where
  receipt_id : Nat
  totalamount : Int
  status : Option String := none
deriving Repr, DecidableEq

/-- Row of the `line_item` table. -/
structure LineItemRow where
  line_item_id : Nat
  receipt_id : Nat
  price : Int
deriving Repr, DecidableEq

/-- Row of the `meal_item` table. -/
structure MealItemRow where
  line_item_id : Nat
  size : Option String
  price : Int
  meat1 : Option String
  meat2 : Option String
  meat3 : Option String
  side : Option String
deriving Repr, DecidableEq

/-- Row of the `drink_item` table. -/
structure DrinkItemRow where
  line_item_id : Nat
  name : Option String
  price : Int
  size : String
deriving Repr, DecidableEq

/-- Row of the `appetizer_item` table. -/
structure AppetizerItemRow where
  line_item_id : Nat
  name : Option String
  price : Int
deriving Repr, DecidableEq

/-- Row of the `menu` table (only the columns the checkout touches). -/
structure MenuRow where
  menu_id : Nat
  name : String
deriving Repr, DecidableEq

/-- Row of the `recipe_ingredient` table. -/
structure RecipeIngredientRow where
  recipe_id : Nat
  ingredient_id : Nat
deriving Repr, DecidableEq

/-- Row of the `ingredient` table: `quantity` is the recipe amount
consumed per unit sold, `inventory_id` links to the stock row. -/
structure IngredientRow where
  ingredient_id : Nat
  quantity : Int
  inventory_id : Nat
deriving Repr, DecidableEq

/-- Row of the `inventory` table (`quantity` may go negative: the code
has no floor check). -/
structure InventoryRow where
  inventory_id : Nat
  quantity : Int
deriving Repr, DecidableEq

/-- The database state visible to the checkout and fetch handlers,
together with the sequence counters backing the `RETURNING *_id`
clauses. -/
structure DB where
  receipts : List ReceiptRow := []
  lineItems : List LineItemRow := []
  mealItems : List MealItemRow := []
  drinkItems : List DrinkItemRow := []
  appetizerItems : List AppetizerItemRow := []
  menu : List MenuRow := []
  recipeIngredients : List RecipeIngredientRow := []
  ingredients : List IngredientRow := []
  inventory : List InventoryRow := []
  nextReceiptId : Nat := 1
  nextLineItemId : Nat := 1
deriving Repr, DecidableEq

/-- The `switch (orderItem.type)` of the checkout handler recognizes
exactly these discriminators; any other value (including `'Appetizer'`
with a capital A) falls through with no variant-row insert. -/
def recognizedType (t : String) : Bool :=
  t == "Meal" || t == "drink" || t == "Drink" || t == "appetizer"

/-- The variant-row insert of one quantity-unit: the `switch` body.
`'Meal'` inserts into `meal_item` (entree slots via `|| null`),
`'drink'`/`'Drink'` insert into `drink_item` with the literal size
`'Regular'`, `'appetizer'` inserts into `appetizer_item`; a default case
is absent, so any other `type` inserts nothing. -/
def insertVariant (db : DB) (lid : Nat) (it : OrderItem) : DB :=
  if it.type = "Meal" then
    { db with mealItems := db.mealItems ++
        [{ line_item_id := lid, size := it.size, price := it.price,
           meat1 := entreeAt it 0, meat2 := entreeAt it 1,
           meat3 := entreeAt it 2, side := it.side }] }
  else if it.type = "drink" ∨ it.type = "Drink" then
    { db with drinkItems := db.drinkItems ++
        [{ line_item_id := lid, name := it.name, price := it.price,
           size := "Regular" }] }
  else if it.type = "appetizer" then
    { db with appetizerItems := db.appetizerItems ++
        [{ line_item_id := lid, name := it.name, price := it.price }] }
  else
    db

/-- The inner `for (let q = 0; q < quantity; q++)` loop: per iteration one
`line_item` insert (returning a fresh id) followed by the variant `switch`. -/
def insertUnits (db : DB) (rid : Nat) (it : OrderItem) : Nat → DB
  | 0 => db
  | n + 1 =>
    let lid := db.nextLineItemId
    let db₁ := { db with
      lineItems := db.lineItems ++
        [{ line_item_id := lid, receipt_id := rid, price := it.price }],
      nextLineItemId := lid + 1 }
    insertUnits (insertVariant db₁ lid it) rid it n

/-- The menu names the entry resolves to for the ingredient lookup:
`WHERE m.name IN ($1,$2,$3,$4)` for a Meal (the three `entrees[k] || null`
slots plus `side`; a NULL parameter never matches), `WHERE m.name = $1`
(the entry's `name`) otherwise. -/
def resolvedNames (it : OrderItem) : List String :=
  if it.type = "Meal" then
    ([entreeAt it 0, entreeAt it 1, entreeAt it 2, it.side]).filterMap id
  else
    it.name.toList

/-- The ingredient `SELECT`: join `menu` → `recipe_ingredient` →
`ingredient` → `inventory` restricted to the resolved names, projecting
`(inv.inventory_id, i.quantity)` per joined row. -/
def ingredientRows (db : DB) (names : List String) : List (Nat × Int) :=
  (db.menu.filter (fun m => names.contains m.name)).flatMap (fun m =>
    (db.recipeIngredients.filter (fun ri => ri.recipe_id = m.menu_id)).flatMap (fun ri =>
      (db.ingredients.filter (fun i => i.ingredient_id = ri.ingredient_id)).flatMap (fun i =>
        (db.inventory.filter (fun inv => inv.inventory_id = i.inventory_id)).map (fun inv =>
          (inv.inventory_id, i.quantity)))))

/-- One `UPDATE inventory SET quantity = quantity - $1 WHERE inventory_id = $2`
with `$1 = row.quantity * quantity`. -/
def decrementInventory (db : DB) (r : Nat × Int) (quantity : Nat) : DB :=
  { db with inventory := db.inventory.map (fun inv =>
      if inv.inventory_id = r.1 then
        { inv with quantity := inv.quantity - r.2 * (quantity : Int) }
      else inv) }

/-- The `for (const row of ingredientList.rows)` update loop. -/
def applyDecrements (db : DB) (rows : List (Nat × Int)) (quantity : Nat) : DB :=
  rows.foldl (fun db r => decrementInventory db r quantity) db

/-- One iteration of `for (const orderItem of orderList)`: the quantity
loop of inserts, then — once per entry — the ingredient lookup and the
inventory updates. -/
def processItem (db : DB) (rid : Nat) (it : OrderItem) : DB :=
  let q := effQuantity it
  let db₁ := insertUnits db rid it q
  applyDecrements db₁ (ingredientRows db₁ (resolvedNames it)) q

/-- The entry loop over `orderList`. -/
def processList (db : DB) (rid : Nat) : List OrderItem → DB
  | [] => db
  | it :: rest => processList (processItem db rid it) rid rest

/-- The happy-path body of `/processOrder`: receipt insert (capturing the
generated id), then the entry loop.  Returns the final state and the
receipt id reported to the caller. -/
def processOrder (db : DB) (orderList : List OrderItem) (totalPrice : Int) :
    DB × Nat :=
  let rid := db.nextReceiptId
  let db₁ := { db with
    receipts := db.receipts ++
      [{ receipt_id := rid, totalamount := totalPrice }],
    nextReceiptId := rid + 1 }
  (processList db₁ rid orderList, rid)

/-! ## Receipt fetch (`router.get('/receipts/:receipt_id')`) -/

/-- `[mi.meat1, mi.meat2, mi.meat3].filter(Boolean)`: a null or
empty-string value is dropped. -/
def truthy (s : Option String) : Option String :=
  match s with
  | none => none
  | some s => if s = "" then none else some s

/-- One element of the `line_items` array the fetch handler responds
with; fields absent for a given `type` are `none`/`[]`. -/
structure FetchedItem where
  line_item_id : Nat
  type : String
  name : Option String := none
  size : Option String := none
  meats : List String := []
  side : Option String := none
  price : Int
deriving Repr, DecidableEq

/-- The per-line-item variant re-derivation: probe `meal_item`, then
`appetizer_item`, then `drink_item` for a row with this `line_item_id`;
the first table with a row determines the reported `type`, otherwise
`'Unknown'`. -/
def deriveItem (db : DB) (li : LineItemRow) : FetchedItem :=
  match db.mealItems.find? (fun mi => mi.line_item_id == li.line_item_id) with
  | some mi =>
    { line_item_id := li.line_item_id, type := "Meal", size := mi.size,
      meats := ([mi.meat1, mi.meat2, mi.meat3]).filterMap truthy,
      side := mi.side, price := li.price }
  | none =>
    match db.appetizerItems.find? (fun ai => ai.line_item_id == li.line_item_id) with
    | some ai =>
      { line_item_id := li.line_item_id, type := "Appetizer",
        name := ai.name, price := li.price }
    | none =>
      match db.drinkItems.find? (fun di => di.line_item_id == li.line_item_id) with
      | some di =>
        { line_item_id := li.line_item_id, type := "Drink", name := di.name,
          size := some di.size, price := li.price }
      | none =>
        { line_item_id := li.line_item_id, type := "Unknown", price := li.price }

/-- The fetch handler: 404 (`none`) when no `receipt` row has the id,
otherwise the receipt row plus the derived `line_items` of its
`line_item` rows. -/
def fetchReceipt (db : DB) (rid : Nat) : Option (ReceiptRow × List FetchedItem) :=
  match db.receipts.find? (fun r => r.receipt_id == rid) with
  | none => none
  | some r =>
    some (r, (db.lineItems.filter (fun li => li.receipt_id == rid)).map
      (deriveItem db))

/-! ## Transactional wrapper with failure oracle

Each SQL statement the handler issues inside `BEGIN … COMMIT` is given a
sequential index; the oracle `failAt` names the statement (if any) at
which the database reports an error.  A failure aborts the remaining
statements; the `catch` block then issues `ROLLBACK` — modelled as the
handler answering with the *initial* state — and responds with a
500-status error carrying the error message. -/

/-- The HTTP outcome of `/processOrder`: `{ result: receiptId, success: true }`
or a 500 response `{ error: message }`. -/
inductive CheckoutResponse where
  | ok (receiptId : Nat)
  | serverError (msg : String)
deriving Repr, DecidableEq

/-- Issue statement number `k`: fails exactly when the oracle names `k`. -/
def issue (failAt : Option Nat) (k : Nat) : Except String Nat :=
  if failAt = some k then Except.error "db error" else Except.ok (k + 1)

/-- `insertUnits` under the oracle: the `line_item` insert is a statement;
the variant insert is a statement only when the `switch` has a matching
case (otherwise no SQL runs for it). -/
def insertUnitsT (failAt : Option Nat) (db : DB) (rid : Nat) (it : OrderItem)
    (k : Nat) : Nat → Except String (DB × Nat)
  | 0 => Except.ok (db, k)
  | n + 1 => do
    let k₁ ← issue failAt k
    let lid := db.nextLineItemId
    let db₁ := { db with
      lineItems := db.lineItems ++
        [{ line_item_id := lid, receipt_id := rid, price := it.price }],
      nextLineItemId := lid + 1 }
    let (db₂, k₂) ←
      if recognizedType it.type then do
        let k₂ ← issue failAt k₁
        Except.ok (insertVariant db₁ lid it, k₂)
      else
        Except.ok (insertVariant db₁ lid it, k₁)
    insertUnitsT failAt db₂ rid it k₂ n

/-- The inventory update loop under the oracle: one statement per
selected row. -/
def applyDecrementsT (failAt : Option Nat) (db : DB) (quantity : Nat)
    (k : Nat) : List (Nat × Int) → Except String (DB × Nat)
  | [] => Except.ok (db, k)
  | r :: rs => do
    let k₁ ← issue failAt k
    applyDecrementsT failAt (decrementInventory db r quantity) quantity k₁ rs

/-- One entry under the oracle: the unit loop, the ingredient `SELECT`
(one statement), the update loop. -/
def processItemT (failAt : Option Nat) (db : DB) (rid : Nat) (it : OrderItem)
    (k : Nat) : Except String (DB × Nat) := do
  let q := effQuantity it
  let (db₁, k₁) ← insertUnitsT failAt db rid it k q
  let k₂ ← issue failAt k₁
  applyDecrementsT failAt db₁ q k₂ (ingredientRows db₁ (resolvedNames it))

/-- The entry loop under the oracle. -/
def processListT (failAt : Option Nat) (db : DB) (rid : Nat) (k : Nat) :
    List OrderItem → Except String (DB × Nat)
  | [] => Except.ok (db, k)
  | it :: rest => do
    let (db₁, k₁) ← processItemT failAt db rid it k
    processListT failAt db₁ rid k₁ rest

/-- The transaction body under the oracle: statement 0 is the `receipt`
insert. -/
def processOrderT (failAt : Option Nat) (db : DB) (orderList : List OrderItem)
    (totalPrice : Int) : Except String (DB × Nat) := do
  let k₁ ← issue failAt 0
  let rid := db.nextReceiptId
  let db₁ := { db with
    receipts := db.receipts ++
      [{ receipt_id := rid, totalamount := totalPrice }],
    nextReceiptId := rid + 1 }
  let (db₂, _) ← processListT failAt db₁ rid k₁ orderList
  Except.ok (db₂, rid)

/-- The whole handler: on success `COMMIT` makes the new state durable
and the caller gets the receipt id; on any statement failure the `catch`
block rolls back (the committed state is the initial one) and the caller
gets a 500-status error response. -/
def handleProcessOrder (failAt : Option Nat) (db : DB)
    (orderList : List OrderItem) (totalPrice : Int) : DB × CheckoutResponse :=
  match processOrderT failAt db orderList totalPrice with
  | Except.ok (db', rid) => (db', CheckoutResponse.ok rid)
  | Except.error msg => (db, CheckoutResponse.serverError msg)

/-! ## Closed-form characterization of the insert loops

The rows produced by the quantity loop, described unit-by-unit from the
first fresh `line_item_id`.  `List.replicate n it` stands for the `n`
iterations of the inner loop on entry `it`; a general unit list covers
the concatenation over a whole cart. -/

/-- The `meal_item` row inserted for one unit of a `'Meal'` entry. -/
def mealRowOf (lid : Nat) (it : OrderItem) : MealItemRow :=
  { line_item_id := lid, size := it.size, price := it.price,
    meat1 := entreeAt it 0, meat2 := entreeAt it 1, meat3 := entreeAt it 2,
    side := it.side }

/-- The `drink_item` row inserted for one unit of a `'drink'`/`'Drink'`
entry (size is the literal `'Regular'`). -/
def drinkRowOf (lid : Nat) (it : OrderItem) : DrinkItemRow :=
  { line_item_id := lid, name := it.name, price := it.price, size := "Regular" }

/-- The `appetizer_item` row inserted for one unit of an `'appetizer'`
entry. -/
def appetizerRowOf (lid : Nat) (it : OrderItem) : AppetizerItemRow :=
  { line_item_id := lid, name := it.name, price := it.price }

/-- `line_item` rows of a unit list, ids starting at `nid`. -/
def expLineItems (nid rid : Nat) : List OrderItem → List LineItemRow
  | [] => []
  | it :: us =>
    { line_item_id := nid, receipt_id := rid, price := it.price } ::
      expLineItems (nid + 1) rid us

/-- `meal_item` rows of a unit list. -/
def expMealRows (nid : Nat) : List OrderItem → List MealItemRow
  | [] => []
  | it :: us =>
    (if it.type = "Meal" then [mealRowOf nid it] else []) ++
      expMealRows (nid + 1) us

/-- `drink_item` rows of a unit list. -/
def expDrinkRows (nid : Nat) : List OrderItem → List DrinkItemRow
  | [] => []
  | it :: us =>
    (if it.type ≠ "Meal" ∧ (it.type = "drink" ∨ it.type = "Drink") then
      [drinkRowOf nid it] else []) ++ expDrinkRows (nid + 1) us

/-- `appetizer_item` rows of a unit list. -/
def expAppRows (nid : Nat) : List OrderItem → List AppetizerItemRow
  | [] => []
  | it :: us =>
    (if it.type ≠ "Meal" ∧ ¬(it.type = "drink" ∨ it.type = "Drink") ∧
        it.type = "appetizer" then
      [appetizerRowOf nid it] else []) ++ expAppRows (nid + 1) us

/-- Total recipe quantity the selected ingredient rows require of the
inventory id `v` (one `UPDATE … quantity - recipeQty × cartQty` fires per
selected row; subtractions to the same row accumulate to this sum times
the cart quantity). -/
def requiredFor (rows : List (Nat × Int)) (v : Nat) : Int :=
  ((rows.filter (fun r => r.1 = v)).map Prod.snd).sum

/-- The flattening of a cart into quantity-units, in cart order. -/
def unitList : List OrderItem → List OrderItem
  | [] => []
  | it :: rest => List.replicate (effQuantity it) it ++ unitList rest

/-- Total number of variant rows across the three variant tables. -/
def variantCount (db : DB) : Nat :=
  db.mealItems.length + db.drinkItems.length + db.appetizerItems.length

/-- What the fetch handler reconstructs for one quantity-unit of a cart
entry whose `line_item` got id `lid`: the discriminator is canonicalized
(`'drink' ↦ 'Drink'`, `'appetizer' ↦ 'Appetizer'`), a Meal's null/empty
entree slots are dropped, a Drink's size is the stored `'Regular'`, and an
entry whose `type` the checkout `switch` did not recognize comes back as
`'Unknown'` with only the price. -/
def expectedFetchedOne (lid : Nat) (it : OrderItem) : FetchedItem :=
  if it.type = "Meal" then
    { line_item_id := lid, type := "Meal", size := it.size,
      meats := ([entreeAt it 0, entreeAt it 1, entreeAt it 2]).filterMap truthy,
      side := it.side, price := it.price }
  else if it.type = "drink" ∨ it.type = "Drink" then
    { line_item_id := lid, type := "Drink", name := it.name,
      size := some "Regular", price := it.price }
  else if it.type = "appetizer" then
    { line_item_id := lid, type := "Appetizer", name := it.name,
      price := it.price }
  else
    { line_item_id := lid, type := "Unknown", price := it.price }

/-- The fetch reconstruction of a unit list, ids starting at `nid`. -/
def expFetched (nid : Nat) : List OrderItem → List FetchedItem
  | [] => []
  | it :: us => expectedFetchedOne nid it :: expFetched (nid + 1) us

/-- Id discipline the application maintains: every stored id is below the
corresponding sequence counter (what `RETURNING *_id` guarantees for rows
generated through the API). -/
def Fresh (db : DB) : Prop :=
  (∀ r ∈ db.receipts, r.receipt_id < db.nextReceiptId) ∧
  (∀ li ∈ db.lineItems, li.receipt_id < db.nextReceiptId) ∧
  (∀ li ∈ db.lineItems, li.line_item_id < db.nextLineItemId) ∧
  (∀ x ∈ db.mealItems, x.line_item_id < db.nextLineItemId) ∧
  (∀ x ∈ db.appetizerItems, x.line_item_id < db.nextLineItemId) ∧
  (∀ x ∈ db.drinkItems, x.line_item_id < db.nextLineItemId)

theorem insertUnits_eq (rid : Nat) (it : OrderItem) :
    ∀ (n : Nat) (db : DB),
    insertUnits db rid it n = { db with
      lineItems := db.lineItems ++
        expLineItems db.nextLineItemId rid (List.replicate n it),
      mealItems := db.mealItems ++
        expMealRows db.nextLineItemId (List.replicate n it),
      drinkItems := db.drinkItems ++
        expDrinkRows db.nextLineItemId (List.replicate n it),
      appetizerItems := db.appetizerItems ++
        expAppRows db.nextLineItemId (List.replicate n it),
      nextLineItemId := db.nextLineItemId + n } := by
  intro n
  induction n with
  | zero =>
    intro db
    simp [insertUnits, expLineItems, expMealRows, expDrinkRows, expAppRows]
  | succ n ih =>
    intro db
    rw [insertUnits, ih]
    by_cases hM : it.type = "Meal"
    · simp [insertVariant, hM, List.replicate_succ, expLineItems, expMealRows,
        expDrinkRows, expAppRows, mealRowOf, drinkRowOf, appetizerRowOf,
        List.append_assoc, Nat.add_comm, Nat.add_assoc, Nat.add_left_comm]
    · by_cases hD : it.type = "drink" ∨ it.type = "Drink"
      · simp [insertVariant, hM, hD, List.replicate_succ, expLineItems,
          expMealRows, expDrinkRows, expAppRows, mealRowOf, drinkRowOf,
          appetizerRowOf, List.append_assoc, Nat.add_comm, Nat.add_assoc,
          Nat.add_left_comm]
      · by_cases hA : it.type = "appetizer"
        · simp [insertVariant, hM, hD, hA, List.replicate_succ, expLineItems,
            expMealRows, expDrinkRows, expAppRows, mealRowOf, drinkRowOf,
            appetizerRowOf, List.append_assoc, Nat.add_comm, Nat.add_assoc,
            Nat.add_left_comm]
        · simp [insertVariant, hM, hD, hA, List.replicate_succ, expLineItems,
            expMealRows, expDrinkRows, expAppRows, mealRowOf, drinkRowOf,
            appetizerRowOf, List.append_assoc, Nat.add_comm, Nat.add_assoc,
            Nat.add_left_comm]

theorem applyDecrements_eq (quantity : Nat) :
    ∀ (rows : List (Nat × Int)) (db : DB),
    applyDecrements db rows quantity = { db with
      inventory := db.inventory.map (fun inv =>
        { inv with quantity :=
            inv.quantity - requiredFor rows inv.inventory_id * quantity }) } := by
  intro rows
  induction rows with
  | nil =>
    intro db
    have h1 : (fun inv : InventoryRow =>
        { inv with quantity :=
            inv.quantity - requiredFor [] inv.inventory_id * quantity }) = id := by
      funext inv
      simp [requiredFor]
    simp [applyDecrements, h1]
  | cons r rs ih =>
    intro db
    have hstep : applyDecrements db (r :: rs) quantity
        = applyDecrements (decrementInventory db r quantity) rs quantity := rfl
    rw [hstep, ih]
    have hinv : decrementInventory db r quantity = { db with
        inventory := db.inventory.map (fun inv =>
          if inv.inventory_id = r.1 then
            { inv with quantity := inv.quantity - r.2 * (quantity : Int) }
          else inv) } := rfl
    rw [hinv]
    simp only [List.map_map]
    congr 1
    apply List.map_congr_left
    intro inv _
    by_cases hid : inv.inventory_id = r.1
    · simp only [Function.comp, hid, if_pos rfl, requiredFor, List.filter_cons,
        decide_eq_true_eq, if_pos trivial]
      simp [hid, List.sum_cons, add_mul]
      ring
    · have hid' : ¬(r.1 = inv.inventory_id) := fun h => hid h.symm
      simp only [Function.comp, requiredFor, List.filter_cons]
      simp [hid, hid']

theorem processItem_eq (db : DB) (rid : Nat) (it : OrderItem) :
    processItem db rid it = { db with
      lineItems := db.lineItems ++
        expLineItems db.nextLineItemId rid (List.replicate (effQuantity it) it),
      mealItems := db.mealItems ++
        expMealRows db.nextLineItemId (List.replicate (effQuantity it) it),
      drinkItems := db.drinkItems ++
        expDrinkRows db.nextLineItemId (List.replicate (effQuantity it) it),
      appetizerItems := db.appetizerItems ++
        expAppRows db.nextLineItemId (List.replicate (effQuantity it) it),
      nextLineItemId := db.nextLineItemId + effQuantity it,
      inventory := db.inventory.map (fun inv =>
        { inv with quantity := inv.quantity
            - requiredFor (ingredientRows db (resolvedNames it)) inv.inventory_id
              * effQuantity it }) } := by
  simp only [processItem]
  rw [insertUnits_eq, applyDecrements_eq]
  rfl

theorem expLineItems_append (rid : Nat) :
    ∀ (us vs : List OrderItem) (nid : Nat),
    expLineItems nid rid (us ++ vs)
      = expLineItems nid rid us ++ expLineItems (nid + us.length) rid vs := by
  intro us
  induction us with
  | nil => intro vs nid; simp [expLineItems]
  | cons u us ih =>
    intro vs nid
    simp [expLineItems, ih, Nat.add_comm, Nat.add_assoc, Nat.add_left_comm]

theorem expMealRows_append :
    ∀ (us vs : List OrderItem) (nid : Nat),
    expMealRows nid (us ++ vs)
      = expMealRows nid us ++ expMealRows (nid + us.length) vs := by
  intro us
  induction us with
  | nil => intro vs nid; simp [expMealRows]
  | cons u us ih =>
    intro vs nid
    simp [expMealRows, ih, Nat.add_comm, Nat.add_assoc, Nat.add_left_comm]

theorem expDrinkRows_append :
    ∀ (us vs : List OrderItem) (nid : Nat),
    expDrinkRows nid (us ++ vs)
      = expDrinkRows nid us ++ expDrinkRows (nid + us.length) vs := by
  intro us
  induction us with
  | nil => intro vs nid; simp [expDrinkRows]
  | cons u us ih =>
    intro vs nid
    simp [expDrinkRows, ih, Nat.add_comm, Nat.add_assoc, Nat.add_left_comm]

theorem expAppRows_append :
    ∀ (us vs : List OrderItem) (nid : Nat),
    expAppRows nid (us ++ vs)
      = expAppRows nid us ++ expAppRows (nid + us.length) vs := by
  intro us
  induction us with
  | nil => intro vs nid; simp [expAppRows]
  | cons u us ih =>
    intro vs nid
    simp [expAppRows, ih, Nat.add_comm, Nat.add_assoc, Nat.add_left_comm]

/-- The entry loop grows `line_item` and the variant tables by the
flattened expansions, leaves the catalog tables and the receipt table
untouched, and only remaps inventory quantities (ids preserved). -/
theorem processList_fields :
    ∀ (ol : List OrderItem) (db : DB) (rid : Nat),
    (processList db rid ol).lineItems
        = db.lineItems ++ expLineItems db.nextLineItemId rid (unitList ol) ∧
    (processList db rid ol).mealItems
        = db.mealItems ++ expMealRows db.nextLineItemId (unitList ol) ∧
    (processList db rid ol).drinkItems
        = db.drinkItems ++ expDrinkRows db.nextLineItemId (unitList ol) ∧
    (processList db rid ol).appetizerItems
        = db.appetizerItems ++ expAppRows db.nextLineItemId (unitList ol) ∧
    (processList db rid ol).receipts = db.receipts ∧
    (processList db rid ol).nextReceiptId = db.nextReceiptId ∧
    (processList db rid ol).nextLineItemId
        = db.nextLineItemId + (unitList ol).length ∧
    (processList db rid ol).menu = db.menu ∧
    (processList db rid ol).recipeIngredients = db.recipeIngredients ∧
    (processList db rid ol).ingredients = db.ingredients ∧
    (processList db rid ol).inventory.map (fun inv => inv.inventory_id)
        = db.inventory.map (fun inv => inv.inventory_id) := by
  intro ol
  induction ol with
  | nil =>
    intro db rid
    simp [processList, unitList, expLineItems, expMealRows, expDrinkRows,
      expAppRows]
  | cons it rest ih =>
    intro db rid
    have hstep : processList db rid (it :: rest)
        = processList (processItem db rid it) rid rest := rfl
    obtain ⟨h1, h2, h3, h4, h5, h6, h7, h8, h9, h10, h11⟩ :=
      ih (processItem db rid it) rid
    rw [hstep, processItem_eq]
    rw [processItem_eq] at h1 h2 h3 h4 h5 h6 h7 h8 h9 h10 h11
    simp only at h1 h2 h3 h4 h5 h6 h7 h8 h9 h10 h11
    refine ⟨?_, ?_, ?_, ?_, ?_, ?_, ?_, ?_, ?_, ?_, ?_⟩
    · rw [h1, unitList, expLineItems_append, List.length_replicate,
        List.append_assoc]
    · rw [h2, unitList, expMealRows_append, List.length_replicate,
        List.append_assoc]
    · rw [h3, unitList, expDrinkRows_append, List.length_replicate,
        List.append_assoc]
    · rw [h4, unitList, expAppRows_append, List.length_replicate,
        List.append_assoc]
    · rw [h5]
    · rw [h6]
    · rw [h7, unitList]
      simp [Nat.add_comm, Nat.add_assoc, Nat.add_left_comm]
    · rw [h8]
    · rw [h9]
    · rw [h10]
    · rw [h11, List.map_map]
      rfl

theorem expLineItems_length (rid : Nat) :
    ∀ (us : List OrderItem) (nid : Nat),
    (expLineItems nid rid us).length = us.length := by
  intro us
  induction us with
  | nil => intro nid; simp [expLineItems]
  | cons u us ih => intro nid; simp [expLineItems, ih]

theorem mem_expLineItems_replicate (rid : Nat) (it : OrderItem) :
    ∀ (n nid : Nat) (li : LineItemRow),
    li ∈ expLineItems nid rid (List.replicate n it) →
    li.receipt_id = rid ∧ li.price = it.price ∧
      nid ≤ li.line_item_id ∧ li.line_item_id < nid + n := by
  intro n
  induction n with
  | zero => intro nid li h; simp [expLineItems] at h
  | succ n ih =>
    intro nid li h
    rw [List.replicate_succ, expLineItems] at h
    rcases List.mem_cons.mp h with h | h
    · subst h
      refine ⟨rfl, rfl, Nat.le_refl _, ?_⟩
      show nid < nid + (n + 1)
      omega
    · obtain ⟨h1, h2, h3, h4⟩ := ih (nid + 1) li h
      exact ⟨h1, h2, by omega, by omega⟩

theorem mem_expMealRows_ge :
    ∀ (us : List OrderItem) (nid : Nat) (a : MealItemRow),
    a ∈ expMealRows nid us → nid ≤ a.line_item_id := by
  intro us
  induction us with
  | nil => intro nid a h; simp [expMealRows] at h
  | cons u us ih =>
    intro nid a h
    rw [expMealRows] at h
    rcases List.mem_append.mp h with h | h
    · by_cases hu : u.type = "Meal"
      · rw [if_pos hu] at h
        simp [mealRowOf] at h
        subst h
        exact Nat.le_refl _
      · rw [if_neg hu] at h
        simp at h
    · exact Nat.le_of_succ_le (ih (nid + 1) a h)

theorem mem_expDrinkRows_ge :
    ∀ (us : List OrderItem) (nid : Nat) (a : DrinkItemRow),
    a ∈ expDrinkRows nid us → nid ≤ a.line_item_id := by
  intro us
  induction us with
  | nil => intro nid a h; simp [expDrinkRows] at h
  | cons u us ih =>
    intro nid a h
    rw [expDrinkRows] at h
    rcases List.mem_append.mp h with h | h
    · by_cases hu : u.type ≠ "Meal" ∧ (u.type = "drink" ∨ u.type = "Drink")
      · rw [if_pos hu] at h
        simp [drinkRowOf] at h
        subst h
        exact Nat.le_refl _
      · rw [if_neg hu] at h
        simp at h
    · exact Nat.le_of_succ_le (ih (nid + 1) a h)

theorem mem_expAppRows_ge :
    ∀ (us : List OrderItem) (nid : Nat) (a : AppetizerItemRow),
    a ∈ expAppRows nid us → nid ≤ a.line_item_id := by
  intro us
  induction us with
  | nil => intro nid a h; simp [expAppRows] at h
  | cons u us ih =>
    intro nid a h
    rw [expAppRows] at h
    rcases List.mem_append.mp h with h | h
    · by_cases hu : u.type ≠ "Meal" ∧ ¬(u.type = "drink" ∨ u.type = "Drink") ∧
          u.type = "appetizer"
      · rw [if_pos hu] at h
        simp [appetizerRowOf] at h
        subst h
        exact Nat.le_refl _
      · rw [if_neg hu] at h
        simp at h
    · exact Nat.le_of_succ_le (ih (nid + 1) a h)

theorem expVariant_count :
    ∀ (us : List OrderItem) (nid : Nat),
    (expMealRows nid us).length + (expDrinkRows nid us).length +
        (expAppRows nid us).length
      = (us.filter (fun u => recognizedType u.type)).length := by
  intro us
  induction us with
  | nil => intro nid; simp [expMealRows, expDrinkRows, expAppRows]
  | cons u us ih =>
    intro nid
    rw [expMealRows, expDrinkRows, expAppRows, List.filter_cons]
    have h := ih (nid + 1)
    by_cases hM : u.type = "Meal"
    · rw [if_pos hM, if_neg (by simp [hM]), if_neg (by simp [hM]),
        if_pos (by simp [recognizedType, hM])]
      simp only [List.length_append, List.length_cons, List.length_nil]
      omega
    · by_cases hD : u.type = "drink" ∨ u.type = "Drink"
      · rw [if_neg hM, if_pos ⟨hM, hD⟩, if_neg (fun hc => hc.2.1 hD),
          if_pos (by rcases hD with hd | hd <;> simp [recognizedType, hd])]
        simp only [List.length_append, List.length_cons, List.length_nil]
        omega
      · by_cases hA : u.type = "appetizer"
        · rw [if_neg hM, if_neg (fun hc => hD hc.2), if_pos ⟨hM, hD, hA⟩,
            if_pos (by simp [recognizedType, hA])]
          simp only [List.length_append, List.length_cons, List.length_nil]
          omega
        · have hd1 : u.type ≠ "drink" := fun hh => hD (Or.inl hh)
          have hd2 : u.type ≠ "Drink" := fun hh => hD (Or.inr hh)
          rw [if_neg hM, if_neg (fun hc => hD hc.2),
            if_neg (fun hc => hA hc.2.2),
            if_neg (by simp [recognizedType, hM, hA, hd1, hd2])]
          simp only [List.length_append, List.length_nil]
          omega

/-! ## Re-deriving variants on fetch -/

theorem deriveItem_meal_found (db : DB) (li : LineItemRow) (mi : MealItemRow)
    (h : db.mealItems.find? (fun x => x.line_item_id == li.line_item_id)
        = some mi) :
    deriveItem db li =
      { line_item_id := li.line_item_id, type := "Meal", size := mi.size,
        meats := ([mi.meat1, mi.meat2, mi.meat3]).filterMap truthy,
        side := mi.side, price := li.price } := by
  simp [deriveItem, h]

theorem deriveItem_app_found (db : DB) (li : LineItemRow)
    (ai : AppetizerItemRow)
    (hm : db.mealItems.find? (fun x => x.line_item_id == li.line_item_id)
        = none)
    (h : db.appetizerItems.find? (fun x => x.line_item_id == li.line_item_id)
        = some ai) :
    deriveItem db li =
      { line_item_id := li.line_item_id, type := "Appetizer", name := ai.name,
        price := li.price } := by
  simp [deriveItem, hm, h]

theorem deriveItem_drink_found (db : DB) (li : LineItemRow)
    (di : DrinkItemRow)
    (hm : db.mealItems.find? (fun x => x.line_item_id == li.line_item_id)
        = none)
    (ha : db.appetizerItems.find? (fun x => x.line_item_id == li.line_item_id)
        = none)
    (h : db.drinkItems.find? (fun x => x.line_item_id == li.line_item_id)
        = some di) :
    deriveItem db li =
      { line_item_id := li.line_item_id, type := "Drink", name := di.name,
        size := some di.size, price := li.price } := by
  simp [deriveItem, hm, ha, h]

theorem deriveItem_unknown (db : DB) (li : LineItemRow)
    (hm : db.mealItems.find? (fun x => x.line_item_id == li.line_item_id)
        = none)
    (ha : db.appetizerItems.find? (fun x => x.line_item_id == li.line_item_id)
        = none)
    (hd : db.drinkItems.find? (fun x => x.line_item_id == li.line_item_id)
        = none) :
    deriveItem db li =
      { line_item_id := li.line_item_id, type := "Unknown",
        price := li.price } := by
  simp [deriveItem, hm, ha, hd]

theorem find?_id_eq_none_of_lt {α : Type} (idOf : α → Nat) (l : List α)
    (j : Nat) (h : ∀ x ∈ l, idOf x < j) :
    l.find? (fun x => idOf x == j) = none := by
  apply List.find?_eq_none.mpr
  intro x hx
  simp only [beq_iff_eq]
  exact Nat.ne_of_lt (h x hx)

theorem find?_id_eq_none_of_gt {α : Type} (idOf : α → Nat) (l : List α)
    (j : Nat) (h : ∀ x ∈ l, j < idOf x) :
    l.find? (fun x => idOf x == j) = none := by
  apply List.find?_eq_none.mpr
  intro x hx
  simp only [beq_iff_eq]
  exact (Nat.ne_of_lt (h x hx)).symm

theorem map_deriveItem_expFetched (dbF : DB) (rid : Nat) :
    ∀ (us : List OrderItem) (nid : Nat) (M : List MealItemRow)
      (A : List AppetizerItemRow) (D : List DrinkItemRow),
    dbF.mealItems = M ++ expMealRows nid us →
    dbF.appetizerItems = A ++ expAppRows nid us →
    dbF.drinkItems = D ++ expDrinkRows nid us →
    (∀ x ∈ M, x.line_item_id < nid) →
    (∀ x ∈ A, x.line_item_id < nid) →
    (∀ x ∈ D, x.line_item_id < nid) →
    (expLineItems nid rid us).map (deriveItem dbF) = expFetched nid us := by
  intro us
  induction us with
  | nil => intro nid M A D _ _ _ _ _ _; simp [expLineItems, expFetched]
  | cons u us ih =>
    intro nid M A D hM hA hD hMlt hAlt hDlt
    rw [expLineItems, expFetched, List.map_cons]
    rw [expMealRows] at hM
    rw [expAppRows] at hA
    rw [expDrinkRows] at hD
    have hMnone : M.find? (fun x => x.line_item_id == nid) = none :=
      find?_id_eq_none_of_lt _ M nid hMlt
    have hAnone : A.find? (fun x => x.line_item_id == nid) = none :=
      find?_id_eq_none_of_lt _ A nid hAlt
    have hDnone : D.find? (fun x => x.line_item_id == nid) = none :=
      find?_id_eq_none_of_lt _ D nid hDlt
    have hMrest : (expMealRows (nid + 1) us).find?
        (fun x => x.line_item_id == nid) = none :=
      find?_id_eq_none_of_gt _ _ nid
        (fun x hx => mem_expMealRows_ge us (nid + 1) x hx)
    have hArest : (expAppRows (nid + 1) us).find?
        (fun x => x.line_item_id == nid) = none :=
      find?_id_eq_none_of_gt _ _ nid
        (fun x hx => mem_expAppRows_ge us (nid + 1) x hx)
    have hDrest : (expDrinkRows (nid + 1) us).find?
        (fun x => x.line_item_id == nid) = none :=
      find?_id_eq_none_of_gt _ _ nid
        (fun x hx => mem_expDrinkRows_ge us (nid + 1) x hx)
    have htail : (expLineItems (nid + 1) rid us).map (deriveItem dbF)
        = expFetched (nid + 1) us := by
      apply ih (nid + 1)
        (M ++ (if u.type = "Meal" then [mealRowOf nid u] else []))
        (A ++ (if u.type ≠ "Meal" ∧ ¬(u.type = "drink" ∨ u.type = "Drink") ∧
            u.type = "appetizer" then [appetizerRowOf nid u] else []))
        (D ++ (if u.type ≠ "Meal" ∧ (u.type = "drink" ∨ u.type = "Drink")
            then [drinkRowOf nid u] else []))
      · rw [hM, List.append_assoc]
      · rw [hA, List.append_assoc]
      · rw [hD, List.append_assoc]
      · intro x hx
        rcases List.mem_append.mp hx with hx | hx
        · exact Nat.lt_succ_of_lt (hMlt x hx)
        · split at hx
          · simp [mealRowOf] at hx
            subst hx
            exact Nat.lt_succ_self _
          · simp at hx
      · intro x hx
        rcases List.mem_append.mp hx with hx | hx
        · exact Nat.lt_succ_of_lt (hAlt x hx)
        · split at hx
          · simp [appetizerRowOf] at hx
            subst hx
            exact Nat.lt_succ_self _
          · simp at hx
      · intro x hx
        rcases List.mem_append.mp hx with hx | hx
        · exact Nat.lt_succ_of_lt (hDlt x hx)
        · split at hx
          · simp [drinkRowOf] at hx
            subst hx
            exact Nat.lt_succ_self _
          · simp at hx
    rw [htail]
    congr 1
    by_cases hu : u.type = "Meal"
    · have hfind : dbF.mealItems.find? (fun x => x.line_item_id == nid)
          = some (mealRowOf nid u) := by
        rw [hM, if_pos hu, List.find?_append, hMnone, Option.none_or,
          List.find?_append]
        simp [mealRowOf, hMrest]
      have := deriveItem_meal_found dbF
        { line_item_id := nid, receipt_id := rid, price := u.price }
        (mealRowOf nid u) hfind
      rw [this]
      simp [expectedFetchedOne, hu, mealRowOf]
    · by_cases hd : u.type = "drink" ∨ u.type = "Drink"
      · have hmfind : dbF.mealItems.find? (fun x => x.line_item_id == nid)
            = none := by
          rw [hM, if_neg hu, List.find?_append, hMnone, Option.none_or]
          simpa using hMrest
        have hafind : dbF.appetizerItems.find?
            (fun x => x.line_item_id == nid) = none := by
          rw [hA, if_neg (fun hc => hc.2.1 hd), List.find?_append, hAnone,
            Option.none_or]
          simpa using hArest
        have hdfind : dbF.drinkItems.find? (fun x => x.line_item_id == nid)
            = some (drinkRowOf nid u) := by
          rw [hD, if_pos ⟨hu, hd⟩, List.find?_append, hDnone, Option.none_or,
            List.find?_append]
          simp [drinkRowOf, hDrest]
        have := deriveItem_drink_found dbF
          { line_item_id := nid, receipt_id := rid, price := u.price }
          (drinkRowOf nid u) hmfind hafind hdfind
        rw [this]
        rcases hd with hd | hd <;>
          simp [expectedFetchedOne, hu, hd, drinkRowOf]
      · by_cases ha : u.type = "appetizer"
        · have hmfind : dbF.mealItems.find? (fun x => x.line_item_id == nid)
              = none := by
            rw [hM, if_neg hu, List.find?_append, hMnone, Option.none_or]
            simpa using hMrest
          have hafind : dbF.appetizerItems.find?
              (fun x => x.line_item_id == nid) = some (appetizerRowOf nid u) := by
            rw [hA, if_pos ⟨hu, hd, ha⟩, List.find?_append, hAnone,
              Option.none_or, List.find?_append]
            simp [appetizerRowOf, hArest]
          have := deriveItem_app_found dbF
            { line_item_id := nid, receipt_id := rid, price := u.price }
            (appetizerRowOf nid u) hmfind hafind
          rw [this]
          simp [expectedFetchedOne, hu, hd, ha, appetizerRowOf]
        · have hmfind : dbF.mealItems.find? (fun x => x.line_item_id == nid)
              = none := by
            rw [hM, if_neg hu, List.find?_append, hMnone, Option.none_or]
            simpa using hMrest
          have hafind : dbF.appetizerItems.find?
              (fun x => x.line_item_id == nid) = none := by
            rw [hA, if_neg (fun hc => ha hc.2.2), List.find?_append, hAnone,
              Option.none_or]
            simpa using hArest
          have hdfind : dbF.drinkItems.find?
              (fun x => x.line_item_id == nid) = none := by
            rw [hD, if_neg (fun hc => hd hc.2), List.find?_append, hDnone,
              Option.none_or]
            simpa using hDrest
          have := deriveItem_unknown dbF
            { line_item_id := nid, receipt_id := rid, price := u.price }
            hmfind hafind hdfind
          rw [this]
          simp [expectedFetchedOne, hu, hd, ha]

theorem mem_expLineItems_fields (rid : Nat) :
    ∀ (us : List OrderItem) (nid : Nat) (li : LineItemRow),
    li ∈ expLineItems nid rid us →
    li.receipt_id = rid ∧ nid ≤ li.line_item_id := by
  intro us
  induction us with
  | nil => intro nid li h; simp [expLineItems] at h
  | cons u us ih =>
    intro nid li h
    rw [expLineItems] at h
    rcases List.mem_cons.mp h with h | h
    · subst h; exact ⟨rfl, Nat.le_refl _⟩
    · obtain ⟨h1, h2⟩ := ih (nid + 1) li h
      exact ⟨h1, Nat.le_of_succ_le h2⟩

/-- Claim C6 (amended): checking out any cart on a database with sound id
counters and fetching the returned receipt id reproduces the submitted
line items in cart order, expanded per quantity unit — prices always
match; discriminators and names match up to the canonicalization
`expectedFetchedOne` describes (`'drink' ↦ 'Drink'`,
`'appetizer' ↦ 'Appetizer'`; a Meal's null/empty entree slots dropped; an
entry with an unrecognized `type` such as `'Appetizer'` comes back as
`'Unknown'` with its name lost). -/
theorem fetch_after_processOrder (db : DB) (ol : List OrderItem) (tp : Int)
    (hF : Fresh db) :
    fetchReceipt (processOrder db ol tp).1 (processOrder db ol tp).2
      = some ({ receipt_id := db.nextReceiptId, totalamount := tp },
              expFetched db.nextLineItemId (unitList ol)) := by
  obtain ⟨hFr, hFlr, hFl, hFm, hFa, hFd⟩ := hF
  have hres : processOrder db ol tp
      = (processList { db with
          receipts := db.receipts ++
            [{ receipt_id := db.nextReceiptId, totalamount := tp }],
          nextReceiptId := db.nextReceiptId + 1 } db.nextReceiptId ol,
        db.nextReceiptId) := rfl
  rw [hres]
  set db₁ : DB := { db with
    receipts := db.receipts ++
      [{ receipt_id := db.nextReceiptId, totalamount := tp }],
    nextReceiptId := db.nextReceiptId + 1 } with hdb₁
  obtain ⟨h1, h2, h3, h4, h5, h6, h7, h8, h9, h10, h11⟩ :=
    processList_fields ol db₁ db.nextReceiptId
  have hrfind : (processList db₁ db.nextReceiptId ol).receipts.find?
      (fun r => r.receipt_id == db.nextReceiptId)
      = some { receipt_id := db.nextReceiptId, totalamount := tp } := by
    rw [h5]
    show (db.receipts ++ _).find? _ = _
    rw [List.find?_append,
      find?_id_eq_none_of_lt (fun r => r.receipt_id) db.receipts
        db.nextReceiptId hFr, Option.none_or]
    simp
  have hfilter : (processList db₁ db.nextReceiptId ol).lineItems.filter
      (fun li => li.receipt_id == db.nextReceiptId)
      = expLineItems db.nextLineItemId db.nextReceiptId (unitList ol) := by
    rw [h1]
    show (db.lineItems ++ _).filter _ = _
    rw [List.filter_append]
    have hold : db.lineItems.filter
        (fun li => li.receipt_id == db.nextReceiptId) = [] := by
      apply List.filter_eq_nil_iff.mpr
      intro li hli
      simp only [beq_iff_eq]
      exact Nat.ne_of_lt (hFlr li hli)
    have hnew : (expLineItems db.nextLineItemId db.nextReceiptId
        (unitList ol)).filter (fun li => li.receipt_id == db.nextReceiptId)
        = expLineItems db.nextLineItemId db.nextReceiptId (unitList ol) := by
      apply List.filter_eq_self.mpr
      intro li hli
      simp only [beq_iff_eq]
      exact (mem_expLineItems_fields _ _ _ _ hli).1
    rw [hold, hnew, List.nil_append]
  have hmap : (expLineItems db.nextLineItemId db.nextReceiptId
      (unitList ol)).map (deriveItem (processList db₁ db.nextReceiptId ol))
      = expFetched db.nextLineItemId (unitList ol) := by
    apply map_deriveItem_expFetched (processList db₁ db.nextReceiptId ol)
      db.nextReceiptId (unitList ol) db.nextLineItemId
      db.mealItems db.appetizerItems db.drinkItems
    · exact h2
    · exact h4
    · exact h3
    · exact hFm
    · exact hFa
    · exact hFd
  show fetchReceipt (processList db₁ db.nextReceiptId ol) db.nextReceiptId = _
  rw [fetchReceipt, hrfind, hfilter, hmap]

/-! ## Relating the oracle-instrumented run to the pure run -/

theorem issue_cases (failAt : Option Nat) (k : Nat) :
    issue failAt k = Except.ok (k + 1)
      ∨ issue failAt k = Except.error "db error" := by
  by_cases h : failAt = some k <;> simp [issue, h]

theorem insertUnitsT_ok (failAt : Option Nat) (rid : Nat) (it : OrderItem) :
    ∀ (n : Nat) (db : DB) (k : Nat) (db' : DB) (k' : Nat),
    insertUnitsT failAt db rid it k n = Except.ok (db', k') →
    db' = insertUnits db rid it n := by
  intro n
  induction n with
  | zero =>
    intro db k db' k' h
    simp [insertUnitsT] at h
    rw [insertUnits, h.1]
  | succ n ih =>
    intro db k db' k' h
    rw [insertUnitsT] at h
    rcases issue_cases failAt k with hk | hk <;>
      simp only [hk, bind, Except.bind, reduceCtorEq] at h
    by_cases hr : recognizedType it.type = true
    · simp only [if_pos hr] at h
      rcases issue_cases failAt (k + 1) with hk₁ | hk₁ <;>
        simp only [hk₁, bind, Except.bind, reduceCtorEq] at h
      exact ih _ _ _ _ h
    · simp only [if_neg hr] at h
      exact ih _ _ _ _ h

theorem applyDecrementsT_ok (failAt : Option Nat) (q : Nat) :
    ∀ (rows : List (Nat × Int)) (db : DB) (k : Nat) (db' : DB) (k' : Nat),
    applyDecrementsT failAt db q k rows = Except.ok (db', k') →
    db' = applyDecrements db rows q := by
  intro rows
  induction rows with
  | nil =>
    intro db k db' k' h
    simp [applyDecrementsT] at h
    rw [applyDecrements, List.foldl_nil, h.1]
  | cons r rs ih =>
    intro db k db' k' h
    rw [applyDecrementsT] at h
    rcases issue_cases failAt k with hk | hk <;>
      simp only [hk, bind, Except.bind, reduceCtorEq] at h
    have : applyDecrements db (r :: rs) q
        = applyDecrements (decrementInventory db r q) rs q := rfl
    rw [this]
    exact ih _ _ _ _ h

theorem processItemT_ok (failAt : Option Nat) (rid : Nat) (it : OrderItem)
    (db : DB) (k : Nat) (db' : DB) (k' : Nat)
    (h : processItemT failAt db rid it k = Except.ok (db', k')) :
    db' = processItem db rid it := by
  rw [processItemT] at h
  cases hins : insertUnitsT failAt db rid it k (effQuantity it) with
  | error e => simp only [hins, bind, Except.bind, reduceCtorEq] at h
  | ok p =>
    obtain ⟨db₁, k₁⟩ := p
    have hdb₁ : db₁ = insertUnits db rid it (effQuantity it) :=
      insertUnitsT_ok failAt rid it _ db k db₁ k₁ hins
    simp only [hins, bind, Except.bind] at h
    rcases issue_cases failAt k₁ with hk | hk <;>
      simp only [hk, bind, Except.bind, reduceCtorEq] at h
    have := applyDecrementsT_ok failAt (effQuantity it) _ db₁ (k₁ + 1) db' k' h
    rw [this, hdb₁, processItem]

theorem processListT_ok (failAt : Option Nat) (rid : Nat) :
    ∀ (ol : List OrderItem) (db : DB) (k : Nat) (db' : DB) (k' : Nat),
    processListT failAt db rid k ol = Except.ok (db', k') →
    db' = processList db rid ol := by
  intro ol
  induction ol with
  | nil =>
    intro db k db' k' h
    simp [processListT] at h
    rw [processList, h.1]
  | cons it rest ih =>
    intro db k db' k' h
    rw [processListT] at h
    cases hit : processItemT failAt db rid it k with
    | error e => simp only [hit, bind, Except.bind, reduceCtorEq] at h
    | ok p =>
      obtain ⟨db₁, k₁⟩ := p
      have hdb₁ : db₁ = processItem db rid it :=
        processItemT_ok failAt rid it db k db₁ k₁ hit
      simp only [hit, bind, Except.bind] at h
      have : processList db rid (it :: rest)
          = processList (processItem db rid it) rid rest := rfl
      rw [this, ← hdb₁]
      exact ih _ _ _ _ h

theorem processOrderT_ok (failAt : Option Nat) (db : DB)
    (ol : List OrderItem) (tp : Int) (r : DB × Nat)
    (h : processOrderT failAt db ol tp = Except.ok r) :
    r = processOrder db ol tp := by
  rw [processOrderT] at h
  rcases issue_cases failAt 0 with hk | hk <;>
    simp only [hk, bind, Except.bind, reduceCtorEq] at h
  cases hl : processListT failAt { db with
      receipts := db.receipts ++
        [{ receipt_id := db.nextReceiptId, totalamount := tp }],
      nextReceiptId := db.nextReceiptId + 1 } db.nextReceiptId (0 + 1) ol with
  | error e => simp only [hl, bind, Except.bind, reduceCtorEq] at h
  | ok p =>
    obtain ⟨db₂, k₂⟩ := p
    have hdb₂ := processListT_ok failAt db.nextReceiptId ol _ _ db₂ k₂ hl
    simp only [hl, bind, Except.bind, Except.ok.injEq] at h
    rw [← h, hdb₂]
    rfl

theorem insertUnitsT_none (rid : Nat) (it : OrderItem) :
    ∀ (n : Nat) (db : DB) (k : Nat), ∃ k',
    insertUnitsT none db rid it k n
      = Except.ok (insertUnits db rid it n, k') := by
  intro n
  induction n with
  | zero =>
    intro db k
    exact ⟨k, by simp [insertUnitsT, insertUnits]⟩
  | succ n ih =>
    intro db k
    by_cases hr : recognizedType it.type = true
    · obtain ⟨k', hk'⟩ := ih (insertVariant { db with
        lineItems := db.lineItems ++
          [{ line_item_id := db.nextLineItemId, receipt_id := rid,
             price := it.price }],
        nextLineItemId := db.nextLineItemId + 1 } db.nextLineItemId it) (k + 2)
      refine ⟨k', ?_⟩
      rw [insertUnitsT]
      simp only [issue, bind, Except.bind, if_pos hr]
      simp only [Option.some.injEq, reduceCtorEq, if_false]
      exact hk'
    · obtain ⟨k', hk'⟩ := ih (insertVariant { db with
        lineItems := db.lineItems ++
          [{ line_item_id := db.nextLineItemId, receipt_id := rid,
             price := it.price }],
        nextLineItemId := db.nextLineItemId + 1 } db.nextLineItemId it) (k + 1)
      refine ⟨k', ?_⟩
      rw [insertUnitsT]
      simp only [issue, bind, Except.bind, if_neg hr]
      simp only [Option.some.injEq, reduceCtorEq, if_false]
      exact hk'

theorem applyDecrementsT_none (q : Nat) :
    ∀ (rows : List (Nat × Int)) (db : DB) (k : Nat), ∃ k',
    applyDecrementsT none db q k rows
      = Except.ok (applyDecrements db rows q, k') := by
  intro rows
  induction rows with
  | nil =>
    intro db k
    exact ⟨k, by simp [applyDecrementsT, applyDecrements]⟩
  | cons r rs ih =>
    intro db k
    obtain ⟨k', hk'⟩ := ih (decrementInventory db r q) (k + 1)
    refine ⟨k', ?_⟩
    rw [applyDecrementsT]
    simp only [issue, bind, Except.bind, Option.some.injEq, reduceCtorEq,
      if_false]
    rw [hk']
    rfl

theorem processItemT_none (rid : Nat) (it : OrderItem) (db : DB) (k : Nat) :
    ∃ k', processItemT none db rid it k
      = Except.ok (processItem db rid it, k') := by
  obtain ⟨k₁, hk₁⟩ := insertUnitsT_none rid it (effQuantity it) db k
  obtain ⟨k', hk'⟩ := applyDecrementsT_none (effQuantity it)
    (ingredientRows (insertUnits db rid it (effQuantity it))
      (resolvedNames it)) (insertUnits db rid it (effQuantity it)) (k₁ + 1)
  refine ⟨k', ?_⟩
  rw [processItemT]
  simp only [hk₁, bind, Except.bind, issue, Option.some.injEq, reduceCtorEq,
    if_false]
  rw [hk']
  rfl

theorem processListT_none (rid : Nat) :
    ∀ (ol : List OrderItem) (db : DB) (k : Nat), ∃ k',
    processListT none db rid k ol
      = Except.ok (processList db rid ol, k') := by
  intro ol
  induction ol with
  | nil =>
    intro db k
    exact ⟨k, by simp [processListT, processList]⟩
  | cons it rest ih =>
    intro db k
    obtain ⟨k₁, hk₁⟩ := processItemT_none rid it db k
    obtain ⟨k', hk'⟩ := ih (processItem db rid it) k₁
    refine ⟨k', ?_⟩
    rw [processListT]
    simp only [hk₁, bind, Except.bind]
    rw [hk']
    rfl

theorem processOrderT_none (db : DB) (ol : List OrderItem) (tp : Int) :
    processOrderT none db ol tp = Except.ok (processOrder db ol tp) := by
  obtain ⟨k', hk'⟩ := processListT_none db.nextReceiptId ol { db with
    receipts := db.receipts ++
      [{ receipt_id := db.nextReceiptId, totalamount := tp }],
    nextReceiptId := db.nextReceiptId + 1 } (0 + 1)
  rw [processOrderT]
  simp only [issue, bind, Except.bind, Option.some.injEq, reduceCtorEq,
    if_false]
  rw [hk']
  rfl

theorem effQuantity_of_pos (it : OrderItem) (n : Nat) (hq : it.quantity = some n)
    (hn : 0 < n) : effQuantity it = n := by
  cases n with
  | zero => exact absurd hn (by simp)
  | succ m => simp [effQuantity, hq]

theorem filter_id_eq_nil_of_lt {α : Type} (idOf : α → Nat) (l : List α)
    (j : Nat) (h : ∀ x ∈ l, idOf x < j) :
    l.filter (fun x => idOf x == j) = [] := by
  apply List.filter_eq_nil_iff.mpr
  intro x hx
  simp only [beq_iff_eq]
  exact Nat.ne_of_lt (h x hx)

theorem filter_id_eq_nil_of_gt {α : Type} (idOf : α → Nat) (l : List α)
    (j : Nat) (h : ∀ x ∈ l, j < idOf x) :
    l.filter (fun x => idOf x == j) = [] := by
  apply List.filter_eq_nil_iff.mpr
  intro x hx
  simp only [beq_iff_eq]
  exact (Nat.ne_of_lt (h x hx)).symm

theorem mem_expDrinkRows_replicate (it : OrderItem) :
    ∀ (n nid : Nat) (d : DrinkItemRow),
    d ∈ expDrinkRows nid (List.replicate n it) →
    d.name = it.name ∧ d.price = it.price ∧ d.size = "Regular" := by
  intro n
  induction n with
  | zero => intro nid d h; simp [expDrinkRows] at h
  | succ n ih =>
    intro nid d h
    rw [List.replicate_succ, expDrinkRows] at h
    rcases List.mem_append.mp h with h | h
    · split at h
      · simp [drinkRowOf] at h
        subst h
        exact ⟨rfl, rfl, rfl⟩
      · simp at h
    · exact ih (nid + 1) d h

theorem expDrinkRows_length_replicate (it : OrderItem)
    (hc : it.type ≠ "Meal" ∧ (it.type = "drink" ∨ it.type = "Drink")) :
    ∀ (n nid : Nat), (expDrinkRows nid (List.replicate n it)).length = n := by
  intro n
  induction n with
  | zero => intro nid; simp [expDrinkRows]
  | succ n ih =>
    intro nid
    rw [List.replicate_succ, expDrinkRows, if_pos hc]
    simp [ih (nid + 1)]

theorem mem_expAppRows_replicate (it : OrderItem) :
    ∀ (n nid : Nat) (a : AppetizerItemRow),
    a ∈ expAppRows nid (List.replicate n it) →
    a.name = it.name ∧ a.price = it.price := by
  intro n
  induction n with
  | zero => intro nid a h; simp [expAppRows] at h
  | succ n ih =>
    intro nid a h
    rw [List.replicate_succ, expAppRows] at h
    rcases List.mem_append.mp h with h | h
    · split at h
      · simp [appetizerRowOf] at h
        subst h
        exact ⟨rfl, rfl⟩
      · simp at h
    · exact ih (nid + 1) a h

theorem appetizer_cond (it : OrderItem) (ht : it.type = "appetizer") :
    it.type ≠ "Meal" ∧ ¬(it.type = "drink" ∨ it.type = "Drink") ∧
      it.type = "appetizer" := by
  refine ⟨?_, ?_, ht⟩
  · rw [ht]; decide
  · rw [ht]; decide

theorem expAppRows_length_replicate (it : OrderItem)
    (ht : it.type = "appetizer") :
    ∀ (n nid : Nat), (expAppRows nid (List.replicate n it)).length = n := by
  intro n
  induction n with
  | zero => intro nid; simp [expAppRows]
  | succ n ih =>
    intro nid
    rw [List.replicate_succ, expAppRows, if_pos (appetizer_cond it ht)]
    simp [ih (nid + 1)]

theorem expAppRows_filter_count (it : OrderItem) (ht : it.type = "appetizer") :
    ∀ (n nid j : Nat), nid ≤ j → j < nid + n →
    ((expAppRows nid (List.replicate n it)).filter
      (fun a => a.line_item_id == j)).length = 1 := by
  intro n
  induction n with
  | zero => intro nid j h1 h2; omega
  | succ n ih =>
    intro nid j h1 h2
    rw [List.replicate_succ, expAppRows, if_pos (appetizer_cond it ht)]
    by_cases hj : j = nid
    · subst hj
      rw [List.filter_append]
      have hrest : (expAppRows (j + 1) (List.replicate n it)).filter
          (fun a => a.line_item_id == j) = [] :=
        filter_id_eq_nil_of_gt _ _ j
          (fun x hx => mem_expAppRows_ge _ (j + 1) x hx)
      rw [hrest]
      simp [appetizerRowOf]
    · rw [List.filter_append]
      have hhead : ([appetizerRowOf nid it]).filter
          (fun a => a.line_item_id == j) = [] := by
        simp [appetizerRowOf, Ne.symm hj]
      rw [hhead, List.nil_append]
      exact ih (nid + 1) j (by omega) (by omega)

theorem processItem_lineItems_length (db : DB) (rid : Nat) (it : OrderItem) :
    (processItem db rid it).lineItems.length
      = db.lineItems.length + effQuantity it := by
  rw [processItem_eq]
  simp [expLineItems_length]

theorem variantCount_processItem (db : DB) (rid : Nat) (it : OrderItem) :
    variantCount (processItem db rid it)
      = variantCount db
        + (if recognizedType it.type then effQuantity it else 0) := by
  rw [processItem_eq]
  simp only [variantCount]
  have h := expVariant_count
    (List.replicate (effQuantity it) it) db.nextLineItemId
  rw [List.filter_replicate] at h
  by_cases hrec : recognizedType it.type = true
  · rw [if_pos hrec]
    rw [if_pos hrec, List.length_replicate] at h
    simp only [List.length_append]
    omega
  · rw [if_neg hrec]
    rw [if_neg hrec, List.length_nil] at h
    simp only [List.length_append]
    omega

/-! ## The claims -/

/-- Claim C1: checkout is atomic.  Whatever statement of the transaction
the failure oracle makes fail, the handler's outcome is either the fully
committed state of the pure checkout together with the receipt id, or the
untouched initial database together with a 500-style error response — never
a partially applied state; and the failure-free run always commits fully. -/
theorem processOrder_transaction_atomic (failAt : Option Nat) (db : DB)
    (ol : List OrderItem) (tp : Int) :
    (handleProcessOrder failAt db ol tp
        = ((processOrder db ol tp).1,
           CheckoutResponse.ok (processOrder db ol tp).2)
      ∨ ∃ msg, handleProcessOrder failAt db ol tp
          = (db, CheckoutResponse.serverError msg)) ∧
    handleProcessOrder none db ol tp
      = ((processOrder db ol tp).1,
         CheckoutResponse.ok (processOrder db ol tp).2) := by
  constructor
  · cases hp : processOrderT failAt db ol tp with
    | ok r =>
      left
      obtain ⟨db', rid⟩ := r
      have hr := processOrderT_ok failAt db ol tp (db', rid) hp
      simp only [handleProcessOrder, hp]
      rw [← hr]
    | error msg =>
      right
      exact ⟨msg, by simp [handleProcessOrder, hp]⟩
  · simp [handleProcessOrder, processOrderT_none db ol tp]

/-- Claim C2 counterexample: a cart entry with positive quantity whose
`type` value `'Appetizer'` (capital A) is not matched by the checkout
`switch` produces its LineItem rows but **zero** variant rows, refuting
"per LineItem, exactly one type-specific variant row" as stated for every
entry. -/
theorem quantity_expansion_unrecognized_cex :
    (processOrder {} [{ type := "Appetizer", name := some "Egg Rolls",
                        price := 2, quantity := some 2 }] 4).1.lineItems.length
        = 2 ∧
    variantCount (processOrder {}
        [{ type := "Appetizer", name := some "Egg Rolls", price := 2,
           quantity := some 2 }] 4).1
      = 0 := by
  decide

/-- Claim C2 (amended): a cart entry with positive integer quantity `n`
yields exactly `n` LineItem rows, each with the receipt id and the entry's
unit price; it also yields exactly `n` variant rows when its `type` is one
the `switch` recognizes and none otherwise; in particular a `'Drink'`
entry with quantity `n` yields `n` DrinkLineItem rows, each priced at the
entry's price. -/
theorem quantity_expansion (db : DB) (rid : Nat) (it : OrderItem) (n : Nat)
    (hq : it.quantity = some n) (hn : 0 < n) :
    (processItem db rid it).lineItems.length = db.lineItems.length + n ∧
    (∀ li ∈ (processItem db rid it).lineItems,
      li ∈ db.lineItems ∨ (li.receipt_id = rid ∧ li.price = it.price)) ∧
    variantCount (processItem db rid it)
      = variantCount db + (if recognizedType it.type then n else 0) ∧
    (it.type = "Drink" →
      (processItem db rid it).drinkItems.length = db.drinkItems.length + n ∧
      ∀ d ∈ (processItem db rid it).drinkItems,
        d ∈ db.drinkItems ∨ d.price = it.price) := by
  have he : effQuantity it = n := effQuantity_of_pos it n hq hn
  refine ⟨?_, ?_, ?_, ?_⟩
  · rw [processItem_lineItems_length, he]
  · intro li hli
    rw [processItem_eq] at hli
    simp only [] at hli
    rcases List.mem_append.mp hli with h | h
    · exact Or.inl h
    · obtain ⟨h1, h2, _, _⟩ :=
        mem_expLineItems_replicate rid it _ _ li h
      exact Or.inr ⟨h1, h2⟩
  · rw [variantCount_processItem, he]
  · intro ht
    constructor
    · rw [processItem_eq]
      simp only [List.length_append]
      rw [expDrinkRows_length_replicate it ⟨by rw [ht]; decide, Or.inr ht⟩, he]
    · intro d hd
      rw [processItem_eq] at hd
      simp only [] at hd
      rcases List.mem_append.mp hd with h | h
      · exact Or.inl h
      · exact Or.inr (mem_expDrinkRows_replicate it _ _ d h).2.1

/-- Claim C2 witness: a `'Drink'` entry with quantity 3 on the empty
database. -/
theorem quantity_expansion_witness :
    ({ type := "Drink", name := some "Coke", price := 2,
       quantity := some 3 } : OrderItem).quantity = some 3 ∧ 0 < 3 ∧
    ((processItem {} 1 { type := "Drink", name := some "Coke", price := 2,
                         quantity := some 3 }).lineItems.length
        = (({} : DB)).lineItems.length + 3 ∧
      (∀ li ∈ (processItem {} 1 { type := "Drink", name := some "Coke",
                                   price := 2,
                                   quantity := some 3 }).lineItems,
        li ∈ (({} : DB)).lineItems ∨ (li.receipt_id = 1 ∧ li.price = 2)) ∧
      variantCount (processItem {} 1 { type := "Drink", name := some "Coke",
                                       price := 2, quantity := some 3 })
        = variantCount {} + (if recognizedType "Drink" then 3 else 0) ∧
      (("Drink" : String) = "Drink" →
        (processItem {} 1 { type := "Drink", name := some "Coke",
                            price := 2,
                            quantity := some 3 }).drinkItems.length
          = (({} : DB)).drinkItems.length + 3 ∧
        ∀ d ∈ (processItem {} 1 { type := "Drink", name := some "Coke",
                                   price := 2,
                                   quantity := some 3 }).drinkItems,
          d ∈ (({} : DB)).drinkItems ∨ d.price = 2)) :=
  ⟨rfl, by decide,
    quantity_expansion {} 1
      { type := "Drink", name := some "Coke", price := 2,
        quantity := some 3 } 3 rfl (by decide)⟩

/-- Claim C3: the inventory-decrement step runs once per cart entry, and
every inventory row is decremented by the recipe quantities its matching
ingredient rows demand, multiplied by the entry's cart quantity (rows not
touched by the entry's resolved names are decremented by 0). -/
theorem inventory_decrement_scaled (db : DB) (rid : Nat) (it : OrderItem) :
    (processItem db rid it).inventory = db.inventory.map (fun inv =>
      { inv with quantity := inv.quantity
          - requiredFor (ingredientRows db (resolvedNames it)) inv.inventory_id
            * effQuantity it }) := by
  rw [processItem_eq]

/-- Claim C4 counterexample: a cart entry typed `'Appetizer'` — one of the
spec's accepted input values — creates its LineItem but **no**
`appetizer_item` row (the `switch` only matches lowercase `'appetizer'`),
leaving the LineItem without a variant row. -/
theorem appetizer_capital_no_variant_cex :
    (processOrder {} [{ type := "Appetizer", name := some "Spring Rolls",
                        price := 2, quantity := some 1 }] 2).1.lineItems.length
        = 1 ∧
    (processOrder {} [{ type := "Appetizer", name := some "Spring Rolls",
                        price := 2, quantity := some 1 }] 2).1.appetizerItems
        = [] := by
  decide

/-- Claim C4 (amended): for a cart entry whose `type` is the lowercase
`'appetizer'` that the checkout `switch` actually matches, each quantity
unit gets exactly one LineItem row and exactly one `appetizer_item` row
keyed by that LineItem's id (carrying the entry's name and price); entries
typed `'Appetizer'` are not matched and get no variant row. -/
theorem appetizer_lowercase_variant_rows (db : DB) (rid : Nat)
    (it : OrderItem) (ht : it.type = "appetizer") (hF : Fresh db) :
    (processItem db rid it).lineItems.length
        = db.lineItems.length + effQuantity it ∧
    (processItem db rid it).appetizerItems.length
        = db.appetizerItems.length + effQuantity it ∧
    ∀ li ∈ (processItem db rid it).lineItems, li ∉ db.lineItems →
      ((processItem db rid it).appetizerItems.filter
          (fun a => a.line_item_id == li.line_item_id)).length = 1 ∧
      ∀ a ∈ (processItem db rid it).appetizerItems,
        a.line_item_id = li.line_item_id →
        a.name = it.name ∧ a.price = it.price := by
  obtain ⟨-, -, -, -, hFa, -⟩ := hF
  refine ⟨processItem_lineItems_length db rid it, ?_, ?_⟩
  · rw [processItem_eq]
    simp only [List.length_append]
    rw [expAppRows_length_replicate it ht]
  · intro li hli hnew
    rw [processItem_eq] at hli
    simp only [] at hli
    rcases List.mem_append.mp hli with h | h
    · exact absurd h hnew
    · obtain ⟨-, -, hge, hlt⟩ :=
        mem_expLineItems_replicate rid it _ _ li h
      constructor
      · rw [processItem_eq]
        simp only []
        rw [List.filter_append,
          filter_id_eq_nil_of_lt (fun a => a.line_item_id) db.appetizerItems
            li.line_item_id
            (fun x hx => Nat.lt_of_lt_of_le (hFa x hx) hge),
          List.nil_append]
        exact expAppRows_filter_count it ht _ _ _ hge hlt
      · intro a ha hid
        rw [processItem_eq] at ha
        simp only [] at ha
        rcases List.mem_append.mp ha with h' | h'
        · exact absurd hid (Nat.ne_of_lt
            (Nat.lt_of_lt_of_le (hFa a h') hge))
        · exact mem_expAppRows_replicate it _ _ a h'

/-- Claim C4 witness: a lowercase `'appetizer'` entry with quantity 2 on
the empty database. -/
theorem appetizer_lowercase_variant_rows_witness :
    ({ type := "appetizer", name := some "Rangoon", price := 2,
       quantity := some 2 } : OrderItem).type = "appetizer" ∧ Fresh {} ∧
    ((processItem {} 1 { type := "appetizer", name := some "Rangoon",
                         price := 2, quantity := some 2 }).lineItems.length
        = (({} : DB)).lineItems.length
          + effQuantity { type := "appetizer", name := some "Rangoon",
                          price := 2, quantity := some 2 } ∧
     (processItem {} 1 { type := "appetizer", name := some "Rangoon",
                         price := 2,
                         quantity := some 2 }).appetizerItems.length
        = (({} : DB)).appetizerItems.length
          + effQuantity { type := "appetizer", name := some "Rangoon",
                          price := 2, quantity := some 2 } ∧
     ∀ li ∈ (processItem {} 1 { type := "appetizer", name := some "Rangoon",
                                price := 2,
                                quantity := some 2 }).lineItems,
       li ∉ (({} : DB)).lineItems →
       ((processItem {} 1 { type := "appetizer", name := some "Rangoon",
                            price := 2,
                            quantity := some 2 }).appetizerItems.filter
           (fun a => a.line_item_id == li.line_item_id)).length = 1 ∧
       ∀ a ∈ (processItem {} 1 { type := "appetizer",
                                 name := some "Rangoon", price := 2,
                                 quantity := some 2 }).appetizerItems,
         a.line_item_id = li.line_item_id →
         a.name = some "Rangoon" ∧ a.price = 2) :=
  ⟨rfl, by simp [Fresh],
    appetizer_lowercase_variant_rows {} 1
      { type := "appetizer", name := some "Rangoon", price := 2,
        quantity := some 2 } rfl (by simp [Fresh])⟩

/-- Claim C5 counterexample: a `'Drink'` entry submitted with
`size := 'Large'` is stored in `drink_item` with size `'Regular'` — the
insert passes the literal `'Regular'`, not the entry's size field. -/
theorem drink_size_not_verbatim_cex :
    (processOrder {} [{ type := "Drink", name := some "Fountain Drink",
                        size := some "Large", price := 2,
                        quantity := some 1 }] 2).1.drinkItems
      = [{ line_item_id := 1, name := some "Fountain Drink", price := 2,
           size := "Regular" }] ∧
    ("Regular" : String) ≠ "Large" := by
  decide

/-- Claim C5 (amended): every `drink_item` row the checkout inserts for a
`'drink'`/`'Drink'` entry stores the entry's name and unit price verbatim,
but its size label is always the constant `'Regular'`, regardless of the
entry's size field. -/
theorem drink_row_fields (db : DB) (rid : Nat) (it : OrderItem)
    (ht : it.type = "drink" ∨ it.type = "Drink") :
    (processItem db rid it).drinkItems.length
        = db.drinkItems.length + effQuantity it ∧
    ∀ d ∈ (processItem db rid it).drinkItems,
      d ∈ db.drinkItems ∨
        (d.name = it.name ∧ d.price = it.price ∧ d.size = "Regular") := by
  constructor
  · rw [processItem_eq]
    simp only [List.length_append]
    rw [expDrinkRows_length_replicate it
      ⟨by rcases ht with h | h <;> rw [h] <;> decide, ht⟩]
  · intro d hd
    rw [processItem_eq] at hd
    simp only [] at hd
    rcases List.mem_append.mp hd with h | h
    · exact Or.inl h
    · exact Or.inr (mem_expDrinkRows_replicate it _ _ d h)

/-- Claim C5 witness: a `'Drink'` entry with `size := 'Large'` on the
empty database. -/
theorem drink_row_fields_witness :
    (({ type := "Drink", name := some "Iced Tea", size := some "Large",
        price := 3, quantity := some 1 } : OrderItem).type = "drink" ∨
      ({ type := "Drink", name := some "Iced Tea", size := some "Large",
         price := 3, quantity := some 1 } : OrderItem).type = "Drink") ∧
    ((processItem {} 1 { type := "Drink", name := some "Iced Tea",
                         size := some "Large", price := 3,
                         quantity := some 1 }).drinkItems.length
        = (({} : DB)).drinkItems.length
          + effQuantity { type := "Drink", name := some "Iced Tea",
                          size := some "Large", price := 3,
                          quantity := some 1 } ∧
     ∀ d ∈ (processItem {} 1 { type := "Drink", name := some "Iced Tea",
                               size := some "Large", price := 3,
                               quantity := some 1 }).drinkItems,
       d ∈ (({} : DB)).drinkItems ∨
         (d.name = some "Iced Tea" ∧ d.price = 3 ∧ d.size = "Regular")) :=
  ⟨Or.inr rfl,
    drink_row_fields {} 1
      { type := "Drink", name := some "Iced Tea", size := some "Large",
        price := 3, quantity := some 1 } (Or.inr rfl)⟩

/-- Claim C7: the Receipt row stores exactly the caller-supplied
`totalPrice` as `totalamount` — for any cart whatsoever, so in particular
also when that value differs from the sum of the line item prices; nothing
is recomputed server-side. -/
theorem receipt_totalamount_caller_supplied (db : DB) (ol : List OrderItem)
    (tp : Int) :
    (processOrder db ol tp).1.receipts
      = db.receipts
        ++ [{ receipt_id := db.nextReceiptId, totalamount := tp }] :=
  (processList_fields ol { db with
    receipts := db.receipts
      ++ [{ receipt_id := db.nextReceiptId, totalamount := tp }],
    nextReceiptId := db.nextReceiptId + 1 } db.nextReceiptId).2.2.2.2.1

/-- Claim C8: fetch-by-id re-derives a line item's variant by probing the
variant tables in sequence and taking the first hit; in particular a line
item present in exactly one of the three variant tables is reported with
that table's discriminator. -/
theorem variant_rederivation_first_match (db : DB) (li : LineItemRow) :
    (db.mealItems.any (fun x => x.line_item_id == li.line_item_id) = true →
      db.appetizerItems.any (fun x => x.line_item_id == li.line_item_id)
        = false →
      db.drinkItems.any (fun x => x.line_item_id == li.line_item_id)
        = false →
      (deriveItem db li).type = "Meal") ∧
    (db.mealItems.any (fun x => x.line_item_id == li.line_item_id) = false →
      db.appetizerItems.any (fun x => x.line_item_id == li.line_item_id)
        = true →
      db.drinkItems.any (fun x => x.line_item_id == li.line_item_id)
        = false →
      (deriveItem db li).type = "Appetizer") ∧
    (db.mealItems.any (fun x => x.line_item_id == li.line_item_id) = false →
      db.appetizerItems.any (fun x => x.line_item_id == li.line_item_id)
        = false →
      db.drinkItems.any (fun x => x.line_item_id == li.line_item_id)
        = true →
      (deriveItem db li).type = "Drink") := by
  refine ⟨?_, ?_, ?_⟩
  · intro hm _ _
    obtain ⟨mi, hmi, hp⟩ := List.any_eq_true.mp hm
    cases hfind : db.mealItems.find?
        (fun x => x.line_item_id == li.line_item_id) with
    | none => exact absurd hp (List.find?_eq_none.mp hfind mi hmi)
    | some mi' => rw [deriveItem_meal_found db li mi' hfind]
  · intro hm ha _
    have hmfind : db.mealItems.find?
        (fun x => x.line_item_id == li.line_item_id) = none :=
      List.find?_eq_none.mpr (List.any_eq_false.mp hm)
    obtain ⟨ai, hai, hp⟩ := List.any_eq_true.mp ha
    cases hfind : db.appetizerItems.find?
        (fun x => x.line_item_id == li.line_item_id) with
    | none => exact absurd hp (List.find?_eq_none.mp hfind ai hai)
    | some ai' => rw [deriveItem_app_found db li ai' hmfind hfind]
  · intro hm ha hd
    have hmfind : db.mealItems.find?
        (fun x => x.line_item_id == li.line_item_id) = none :=
      List.find?_eq_none.mpr (List.any_eq_false.mp hm)
    have hafind : db.appetizerItems.find?
        (fun x => x.line_item_id == li.line_item_id) = none :=
      List.find?_eq_none.mpr (List.any_eq_false.mp ha)
    obtain ⟨di, hdi, hp⟩ := List.any_eq_true.mp hd
    cases hfind : db.drinkItems.find?
        (fun x => x.line_item_id == li.line_item_id) with
    | none => exact absurd hp (List.find?_eq_none.mp hfind di hdi)
    | some di' => rw [deriveItem_drink_found db li di' hmfind hafind hfind]

/-- Claim C8 witness: a database whose only variant row for line item 5 is
a drink row; fetch re-derivation reports `'Drink'`. -/
theorem variant_rederivation_first_match_witness :
    ({ drinkItems := [{ line_item_id := 5, name := some "Tea", price := 2,
                        size := "Regular" }] } : DB).mealItems.any
        (fun x => x.line_item_id == 5) = false ∧
    ({ drinkItems := [{ line_item_id := 5, name := some "Tea", price := 2,
                        size := "Regular" }] } : DB).appetizerItems.any
        (fun x => x.line_item_id == 5) = false ∧
    ({ drinkItems := [{ line_item_id := 5, name := some "Tea", price := 2,
                        size := "Regular" }] } : DB).drinkItems.any
        (fun x => x.line_item_id == 5) = true ∧
    (deriveItem
        { drinkItems := [{ line_item_id := 5, name := some "Tea", price := 2,
                           size := "Regular" }] }
        { line_item_id := 5, receipt_id := 1, price := 2 }).type
      = "Drink" :=
  ⟨by decide, by decide, by decide,
    (variant_rederivation_first_match
        { drinkItems := [{ line_item_id := 5, name := some "Tea", price := 2,
                           size := "Regular" }] }
        { line_item_id := 5, receipt_id := 1, price := 2 }).2.2
      (by decide) (by decide) (by decide)⟩

/-- Claim C9: a Meal entry with `entrees = [null, null, null]` resolves to
the side name alone — the NULL parameters never match any `menu.name`, so
the only inventory decrements for the entry are the ones reachable from
the side's recipe. -/
theorem null_entrees_side_only (db : DB) (rid : Nat) (it : OrderItem)
    (ht : it.type = "Meal") (he : it.entrees = [none, none, none]) :
    resolvedNames it = it.side.toList ∧
    (processItem db rid it).inventory = db.inventory.map (fun inv =>
      { inv with quantity := inv.quantity
          - requiredFor (ingredientRows db it.side.toList) inv.inventory_id
            * effQuantity it }) := by
  have hr : resolvedNames it = it.side.toList := by
    rw [resolvedNames, if_pos ht]
    simp [entreeAt, he]
    cases it.side <;> simp
  refine ⟨hr, ?_⟩
  rw [processItem_eq, hr]

/-- Claim C9 witness: a Meal with three null entree slots and side
`'Fried Rice'` against a catalog where the side's recipe consumes
inventory item 5. -/
theorem null_entrees_side_only_witness :
    ({ type := "Meal", entrees := [none, none, none],
       side := some "Fried Rice", price := 8,
       quantity := some 1 } : OrderItem).type = "Meal" ∧
    ({ type := "Meal", entrees := [none, none, none],
       side := some "Fried Rice", price := 8,
       quantity := some 1 } : OrderItem).entrees = [none, none, none] ∧
    (resolvedNames { type := "Meal", entrees := [none, none, none],
                     side := some "Fried Rice", price := 8,
                     quantity := some 1 }
      = (some "Fried Rice").toList ∧
     (processItem
        { menu := [{ menu_id := 2, name := "Fried Rice" }],
          recipeIngredients := [{ recipe_id := 2, ingredient_id := 9 }],
          ingredients := [{ ingredient_id := 9, quantity := 1,
                            inventory_id := 5 }],
          inventory := [{ inventory_id := 5, quantity := 20 }] } 1
        { type := "Meal", entrees := [none, none, none],
          side := some "Fried Rice", price := 8,
          quantity := some 1 }).inventory
      = ({ menu := [{ menu_id := 2, name := "Fried Rice" }],
           recipeIngredients := [{ recipe_id := 2, ingredient_id := 9 }],
           ingredients := [{ ingredient_id := 9, quantity := 1,
                             inventory_id := 5 }],
           inventory := [{ inventory_id := 5, quantity := 20 }] }
            : DB).inventory.map (fun inv =>
          { inv with quantity := inv.quantity
              - requiredFor (ingredientRows
                  { menu := [{ menu_id := 2, name := "Fried Rice" }],
                    recipeIngredients := [{ recipe_id := 2,
                                            ingredient_id := 9 }],
                    ingredients := [{ ingredient_id := 9, quantity := 1,
                                      inventory_id := 5 }],
                    inventory := [{ inventory_id := 5, quantity := 20 }] }
                  (some "Fried Rice").toList) inv.inventory_id
                * effQuantity { type := "Meal",
                                entrees := [none, none, none],
                                side := some "Fried Rice", price := 8,
                                quantity := some 1 } })) :=
  ⟨rfl, rfl,
    null_entrees_side_only
      { menu := [{ menu_id := 2, name := "Fried Rice" }],
        recipeIngredients := [{ recipe_id := 2, ingredient_id := 9 }],
        ingredients := [{ ingredient_id := 9, quantity := 1,
                          inventory_id := 5 }],
        inventory := [{ inventory_id := 5, quantity := 20 }] } 1
      { type := "Meal", entrees := [none, none, none],
        side := some "Fried Rice", price := 8, quantity := some 1 }
      rfl rfl⟩

/-- Claim C10 counterexample: an entry with `quantity = 0` whose `type`
(`'Side'`, as the cashier frontend can submit) is not matched by the
`switch` produces one LineItem and **zero** variant rows — refuting the
claim's "one variant row" for every falsy-quantity entry. -/
theorem falsy_quantity_cex :
    (processOrder {} [{ type := "Side", name := some "Side", price := 3,
                        quantity := some 0 }] 3).1.lineItems.length = 1 ∧
    variantCount (processOrder {} [{ type := "Side", name := some "Side",
                                     price := 3,
                                     quantity := some 0 }] 3).1 = 0 := by
  decide

/-- Claim C10 (amended): a missing, null or zero quantity is processed as
quantity 1: such an entry yields exactly one LineItem row, exactly one
variant row when its `type` is recognized by the `switch` (none
otherwise), and one application of its recipe's inventory decrements. -/
theorem falsy_quantity_defaults_to_one (db : DB) (rid : Nat)
    (it : OrderItem) (hq : it.quantity = none ∨ it.quantity = some 0) :
    effQuantity it = 1 ∧
    (processItem db rid it).lineItems.length = db.lineItems.length + 1 ∧
    variantCount (processItem db rid it)
      = variantCount db + (if recognizedType it.type then 1 else 0) ∧
    (processItem db rid it).inventory = db.inventory.map (fun inv =>
      { inv with quantity := inv.quantity
          - requiredFor (ingredientRows db (resolvedNames it)) inv.inventory_id
            * (1 : Nat) }) := by
  have he : effQuantity it = 1 := by
    rcases hq with h | h <;> simp [effQuantity, h]
  refine ⟨he, ?_, ?_, ?_⟩
  · rw [processItem_lineItems_length, he]
  · rw [variantCount_processItem, he]
  · rw [processItem_eq, he]

/-- Claim C10 witness: a `'Drink'` entry submitted with `quantity = 0` on
the empty database. -/
theorem falsy_quantity_defaults_to_one_witness :
    (({ type := "Drink", name := some "Coke", price := 2,
        quantity := some 0 } : OrderItem).quantity = none ∨
      ({ type := "Drink", name := some "Coke", price := 2,
         quantity := some 0 } : OrderItem).quantity = some 0) ∧
    effQuantity { type := "Drink", name := some "Coke", price := 2,
                  quantity := some 0 } = 1 ∧
    (processItem {} 1 { type := "Drink", name := some "Coke", price := 2,
                        quantity := some 0 }).lineItems.length
      = (({} : DB)).lineItems.length + 1 :=
  ⟨Or.inr rfl,
    (falsy_quantity_defaults_to_one {} 1
      { type := "Drink", name := some "Coke", price := 2,
        quantity := some 0 } (Or.inr rfl)).1,
    (falsy_quantity_defaults_to_one {} 1
      { type := "Drink", name := some "Coke", price := 2,
        quantity := some 0 } (Or.inr rfl)).2.1⟩

/-- Claim C6 counterexample: checking out a cart whose single entry is
typed `'Appetizer'` and then fetching the returned receipt id does *not*
reproduce the submitted line item: the fetch reports discriminator
`'Unknown'` and drops the name, because no variant row was stored. -/
theorem round_trip_appetizer_cex :
    fetchReceipt
        (processOrder {} [{ type := "Appetizer", name := some "Crab Rangoon",
                            price := 4, quantity := some 1 }] 4).1
        (processOrder {} [{ type := "Appetizer", name := some "Crab Rangoon",
                            price := 4, quantity := some 1 }] 4).2
      = some ({ receipt_id := 1, totalamount := 4 },
              [{ line_item_id := 1, type := "Unknown", price := 4 }]) ∧
    ("Unknown" : String) ≠ "Appetizer" := by
  decide

/-- Claim C6 witness: the spec's end-to-end cart — one Meal (two entrees,
one empty slot, a side) and a Drink with quantity 2 — checked out on the
empty database and fetched back. -/
theorem checkout_fetch_round_trip_witness :
    Fresh {} ∧
    fetchReceipt
        (processOrder {}
          [{ type := "Meal", size := some "Medium",
             entrees := [some "Orange Chicken", some "Broccoli Beef", none],
             side := some "Fried Rice", price := 8, quantity := some 1 },
           { type := "Drink", name := some "Medium Drink", price := 2,
             quantity := some 2 }] 12).1
        (processOrder {}
          [{ type := "Meal", size := some "Medium",
             entrees := [some "Orange Chicken", some "Broccoli Beef", none],
             side := some "Fried Rice", price := 8, quantity := some 1 },
           { type := "Drink", name := some "Medium Drink", price := 2,
             quantity := some 2 }] 12).2
      = some ({ receipt_id := 1, totalamount := 12 },
              expFetched 1 (unitList
                [{ type := "Meal", size := some "Medium",
                   entrees := [some "Orange Chicken", some "Broccoli Beef",
                               none],
                   side := some "Fried Rice", price := 8,
                   quantity := some 1 },
                 { type := "Drink", name := some "Medium Drink", price := 2,
                   quantity := some 2 }])) :=
  ⟨by simp [Fresh],
    fetch_after_processOrder {}
      [{ type := "Meal", size := some "Medium",
         entrees := [some "Orange Chicken", some "Broccoli Beef", none],
         side := some "Fried Rice", price := 8, quantity := some 1 },
       { type := "Drink", name := some "Medium Drink", price := 2,
         quantity := some 2 }] 12 (by simp [Fresh])⟩

